import Mathlib

/-!
Verification of the booking-to-schedule derivation engine of the
cleaner-schedule repository.

The repository has two variants of the fetch/parse pipeline:
`src/booking_cleaner.py` (fetch_ics, parse_bookings over a map of flats,
build_schedule_for_days, format_schedule, schedule_to_rows) and
`src/app.py` (fetch_ics, parse_bookings over one calendar text,
build_schedule).  Both are embedded here; Python `datetime.date` values
are modelled as day ordinals (`Int`), which is faithful because the code
only ever uses date equality, ordering, and addition of a whole number
of days (`timedelta(days=i)`).  Fallible Python code (functions that may
raise) is embedded in `Except String`; the external collaborators
(`requests.get`, `icalendar.Calendar.from_ical`) are modelled as
abstract inputs describing the outcome the collaborator produces.
-/

namespace CleanerSchedule

/- Calendar dates are modelled as day ordinals (`Int`, days since an
arbitrary epoch); `d + i` models `d + timedelta(days=i)`, and date
comparison is integer comparison. -/

/-- The value carried by a `DTSTART`/`DTEND` property (`prop.dt` in
`icalendar`): a bare date, a date-time (whose `.date()` truncation is the
carried `Int`; the seconds-of-day field is retained to show truncation
drops it), or some other value that is neither (`vother`), which fails
the `isinstance(..., date)` checks in both parsers. -/
inductive DTValue
  | vdate (d : Int)
  | vdatetime (d : Int) (secs : Nat)
  | vother
deriving DecidableEq

/-- One component produced by walking a parsed calendar
(`cal.walk()`).  `dtstart`/`dtend` are `none` when the property is
missing (`comp.get(...)` returns a falsy value). -/
structure Component where
  name : String
  dtstart : Option DTValue
  dtend : Option DTValue
deriving DecidableEq

/-- An input calendar text, abstracted by how the pipeline can observe
it: the empty string, a non-empty string of pure whitespace (so
`ics_text` is truthy but `ics_text.strip()` is falsy), a non-empty text
on which `Calendar.from_ical` raises, or a text parsing to a list of
components. -/
inductive ICSDoc
  | empty
  | blank
  | malformed
  | parsed (comps : List Component)
deriving DecidableEq

/-- `icalendar.Calendar.from_ical`, as observable by this code: raises
(`Except.error`) on empty, whitespace-only, or malformed text, and
returns the walked component list otherwise. -/
def from_ical : ICSDoc → Except String (List Component)
  | .empty => .error "ValueError"
  | .blank => .error "ValueError"
  | .malformed => .error "ValueError"
  | .parsed comps => .ok comps

/-- The date normalisation shared by both parsers: a datetime is
truncated with `.date()`, a bare date is kept, anything else fails the
`isinstance(..., date)` gate and yields `none` (the event is skipped). -/
def normalizeDT : DTValue → Option Int
  | .vdate d => some d
  | .vdatetime d _ => some d
  | .vother => none

/-- `booking_cleaner.parse_bookings`, body of the per-component loop:
skip non-VEVENT components, skip events missing either boundary, skip
events whose normalised dates fail `isinstance`, skip events with
`dtend <= dtstart`, otherwise emit `(dtstart, dtend)`. -/
def eventOf (comp : Component) : Option (Int × Int) :=
  if comp.name = "VEVENT" then
    match comp.dtstart, comp.dtend with
    | some ds, some de =>
      match normalizeDT ds, normalizeDT de with
      | some dtstart, some dtend =>
        if dtend ≤ dtstart then none else some (dtstart, dtend)
      | _, _ => none
    | _, _ => none
  else none

/-- The sort order of `events.sort(key=lambda x: (x[0], x[1]))`: Python
tuple order, i.e. lexicographic on (start, end). -/
def eventLe (a b : Int × Int) : Prop :=
  a.1 < b.1 ∨ (a.1 = b.1 ∧ a.2 ≤ b.2)

instance : DecidableRel eventLe := fun a b => by
  unfold eventLe; infer_instance

instance : IsTotal (Int × Int) eventLe :=
  ⟨by rintro ⟨a1, a2⟩ ⟨b1, b2⟩; simp only [eventLe]; omega⟩

instance : IsTrans (Int × Int) eventLe :=
  ⟨by rintro ⟨a1, a2⟩ ⟨b1, b2⟩ ⟨c1, c2⟩; simp only [eventLe]; omega⟩

/-- `events.sort(key=lambda x: (x[0], x[1]))`: a stable sort by the
lexicographic key.  Because `eventLe` is additionally antisymmetric, a
list has exactly one sorted permutation, so insertion sort computes the
same list as Python's stable sort. -/
def sortEvents (events : List (Int × Int)) : List (Int × Int) :=
  events.insertionSort eventLe

/-- `booking_cleaner.parse_bookings`, per-flat body: empty text yields
the empty event list without touching the calendar parser; otherwise
`Calendar.from_ical` runs unguarded (no try/except), so a raising parse
propagates. -/
def bc_parse_flat : ICSDoc → Except String (List (Int × Int))
  | .empty => .ok []
  | doc =>
    match from_ical doc with
    | .error e => .error e
    | .ok comps => .ok (sortEvents (comps.filterMap eventOf))

/-- `booking_cleaner.parse_bookings`: iterate the flats of `ics_map` in
order; the first flat whose calendar parse raises aborts the whole call
(the exception propagates to the caller). -/
def bc_parse_bookings :
    List (String × ICSDoc) → Except String (List (String × List (Int × Int)))
  | [] => .ok []
  | (flat_name, ics_text) :: rest =>
    match bc_parse_flat ics_text with
    | .error e => .error e
    | .ok events =>
      match bc_parse_bookings rest with
      | .error e => .error e
      | .ok results => .ok ((flat_name, events) :: results)

/-- `app.parse_bookings`, inner helper `to_date`: a datetime is
truncated with `.date()`, a date passes through; a value that is
neither is returned unchanged in Python and then rejected by the
`isinstance(ci, date)` gate, which the `none` case folds together. -/
def to_date : DTValue → Option Int
  | .vdate d => some d
  | .vdatetime d _ => some d
  | .vother => none

/-- `app.parse_bookings`, body of the per-component loop: skip
non-VEVENT components and events missing either boundary; append
`(ci, co)` whenever both boundaries normalise to dates.  Note: unlike
`booking_cleaner`, there is no `co <= ci` check. -/
def app_eventOf (comp : Component) : Option (Int × Int) :=
  if comp.name = "VEVENT" then
    match comp.dtstart, comp.dtend with
    | some ds, some de =>
      match to_date ds, to_date de with
      | some ci, some co => some (ci, co)
      | _, _ => none
    | _, _ => none
  else none

/-- `app.parse_bookings`: blank (after strip) text returns `[]` early;
`Calendar.from_ical` runs inside try/except and a raising parse is
absorbed to `[]`; otherwise the VEVENT spans are collected. -/
def app_parse_bookings (ics_text : ICSDoc) : Except String (List (Int × Int)) :=
  match ics_text with
  | .empty => .ok []
  | .blank => .ok []
  | doc =>
    match from_ical doc with
    | .error _ => .ok []
    | .ok comps => .ok (comps.filterMap app_eventOf)

/-- The outcome of the one `requests.get` call a fetch performs:
either the call raises (timeout, connection error) or it yields a
response with a status code and a body text. -/
inductive HTTPOutcome
  | failure
  | response (status : Nat) (text : String)
deriving DecidableEq

/-- `requests.get(url, ...)`: raises on network failure, returns the
response otherwise. -/
def requests_get : HTTPOutcome → Except String (Nat × String)
  | .failure => .error "RequestException"
  | .response status text => .ok (status, text)

/-- `app.fetch_ics`: empty URL short-circuits to `""`; the request and
status/body checks run inside try/except, so every failure path
(network error, status ≥ 400, empty body) degrades to `""`. -/
def fetch_ics (url : String) (net : HTTPOutcome) : Except String String :=
  if url = "" then .ok ""
  else
    match requests_get net with
    | .error _ => .ok ""
    | .ok (status, text) =>
      .ok (if 400 ≤ status ∨ text = "" then "" else text)

/-- `booking_cleaner.fetch_ics`: empty URL short-circuits to `""`, but
there is no try/except: a raising `requests.get` propagates, and
`r.raise_for_status()` raises `HTTPError` for 4xx/5xx statuses. -/
def bc_fetch_ics (url : String) (net : HTTPOutcome) : Except String String :=
  if url = "" then .ok ""
  else
    match requests_get net with
    | .error e => .error e
    | .ok (status, text) =>
      if 400 ≤ status ∧ status < 600 then .error "HTTPError" else .ok text

/-- The per-unit flag pair stored in a day's map:
`{"check_in": ..., "check_out": ...}`. -/
structure Flags where
  check_in : Bool
  check_out : Bool
deriving DecidableEq

/-- The two `any(...)` existence checks of
`build_schedule_for_days` for one flat's events on day `d`. -/
def dayFlags (events : List (Int × Int)) (d : Int) : Flags :=
  ⟨events.any fun se => se.1 == d, events.any fun se => se.2 == d⟩

/-- The inner loop of `build_schedule_for_days`: the day's map, one
entry per flat (in the iteration order of `bookings`), kept only when
at least one flag is true. -/
def dayMap (bookings : List (String × List (Int × Int))) (d : Int) :
    List (String × Flags) :=
  bookings.filterMap fun fe =>
    if (dayFlags fe.2 d).check_in || (dayFlags fe.2 d).check_out then
      some (fe.1, dayFlags fe.2 d)
    else none

/-- `booking_cleaner.build_schedule_for_days`: for each `i` in
`range(days)` (empty when `days <= 0`, as `Int.toNat` clamps), form day
`start + i`; keep the day only when its map is non-empty.  Python dicts
iterate in insertion order, so both the schedule and each day's map are
faithfully ordered association lists. -/
def build_schedule_for_days (bookings : List (String × List (Int × Int)))
    (start : Int) (days : Int) : List (Int × List (String × Flags)) :=
  (List.range days.toNat).filterMap fun (i : Nat) =>
    if (dayMap bookings (start + (i : Int))).isEmpty then none
    else some (start + (i : Int), dayMap bookings (start + (i : Int)))

/-- `booking_cleaner.format_schedule`, per-entry item text (lines
96–104): the string appended for one flat's flags, `none` when both
flags are false (no item emitted). -/
def format_item (flat_name : String) (flags : Flags) : Option String :=
  if flags.check_in && flags.check_out then some (flat_name ++ ": out/clean/in")
  else if flags.check_out then some (flat_name ++ ": out/clean")
  else if flags.check_in then some (flat_name ++ ": check-in")
  else none

/-- `booking_cleaner.schedule_to_rows`, per-entry action column (lines
251–260). -/
def row_action (flags : Flags) : String :=
  if flags.check_in && flags.check_out then "Check-out / Clean / Check-in"
  else if flags.check_out then "Check-out / Clean"
  else if flags.check_in then "Check-in"
  else ""

/-- The abstract status of the label table in §4.3 of the
specification. -/
inductive Status
  | CHECK_IN
  | CHECK_OUT
  | SAME_DAY_TURNOVER
deriving DecidableEq

/-- Refinement reference, stated from the specification's label table
(§4.3): `{true,false} ↦ CHECK_IN`, `{false,true} ↦ CHECK_OUT`,
`{true,true} ↦ SAME_DAY_TURNOVER`, `{false,false}` unreachable
(`none`).  The presenters above are compared against this table. -/
def spec_label (flags : Flags) : Option Status :=
  match flags.check_in, flags.check_out with
  | true, false => some .CHECK_IN
  | false, true => some .CHECK_OUT
  | true, true => some .SAME_DAY_TURNOVER
  | false, false => none

/-- The text presenter's display string for each status. -/
def format_text : Status → String
  | .CHECK_IN => "check-in"
  | .CHECK_OUT => "out/clean"
  | .SAME_DAY_TURNOVER => "out/clean/in"

/-- The spreadsheet-row presenter's display string for each status. -/
def row_text : Status → String
  | .CHECK_IN => "Check-in"
  | .CHECK_OUT => "Check-out / Clean"
  | .SAME_DAY_TURNOVER => "Check-out / Clean / Check-in"

/-- `addInterval b flat iv` extends flat `flat`'s interval list with
one more interval `iv`, leaving every other flat untouched; used to
state what an extra interval contributes to a built schedule. -/
def addInterval (bookings : List (String × List (Int × Int)))
    (flat : String) (iv : Int × Int) : List (String × List (Int × Int)) :=
  bookings.map fun fe => if fe.1 = flat then (fe.1, iv :: fe.2) else fe

/-! ### Helper lemmas -/

lemma eventOf_lt {comp : Component} {s e : Int}
    (h : eventOf comp = some (s, e)) : s < e := by
  unfold eventOf at h
  repeat' split at h
  all_goals simp_all

lemma mem_sortEvents {x : Int × Int} {l : List (Int × Int)} :
    x ∈ sortEvents l ↔ x ∈ l :=
  List.mem_insertionSort eventLe

lemma sortEvents_pairwise (l : List (Int × Int)) :
    (sortEvents l).Pairwise eventLe :=
  List.sorted_insertionSort eventLe l

lemma bc_parse_flat_mem_lt {doc : ICSDoc} {events : List (Int × Int)}
    (hok : bc_parse_flat doc = .ok events) {s e : Int}
    (he : (s, e) ∈ events) : s < e := by
  cases doc with
  | empty =>
    simp only [bc_parse_flat] at hok
    cases hok
    simp at he
  | blank => exact absurd hok (by simp [bc_parse_flat, from_ical])
  | malformed => exact absurd hok (by simp [bc_parse_flat, from_ical])
  | parsed comps =>
    simp only [bc_parse_flat, from_ical, Except.ok.injEq] at hok
    subst hok
    rw [mem_sortEvents, List.mem_filterMap] at he
    obtain ⟨comp, _, hcomp⟩ := he
    exact eventOf_lt hcomp

lemma bc_parse_flat_sorted {doc : ICSDoc} {events : List (Int × Int)}
    (hok : bc_parse_flat doc = .ok events) : events.Pairwise eventLe := by
  cases doc with
  | empty =>
    simp only [bc_parse_flat] at hok
    cases hok
    exact List.Pairwise.nil
  | blank => exact absurd hok (by simp [bc_parse_flat, from_ical])
  | malformed => exact absurd hok (by simp [bc_parse_flat, from_ical])
  | parsed comps =>
    simp only [bc_parse_flat, from_ical, Except.ok.injEq] at hok
    subst hok
    exact sortEvents_pairwise _

/-- Success of `bc_parse_bookings` relates input and output entrywise:
same flat name in the same position, each event list the successful
parse of that flat's calendar text. -/
lemma bc_parse_bookings_forall₂ {ics_map : List (String × ICSDoc)}
    {results : List (String × List (Int × Int))}
    (hok : bc_parse_bookings ics_map = .ok results) :
    List.Forall₂ (fun p q => p.1 = q.1 ∧ bc_parse_flat p.2 = .ok q.2)
      ics_map results := by
  induction ics_map generalizing results with
  | nil =>
    simp only [bc_parse_bookings, Except.ok.injEq] at hok
    subst hok
    exact List.Forall₂.nil
  | cons hd tl ih =>
    obtain ⟨flat_name, ics_text⟩ := hd
    simp only [bc_parse_bookings] at hok
    cases hflat : bc_parse_flat ics_text with
    | error err => rw [hflat] at hok; exact absurd hok (by simp)
    | ok events =>
      rw [hflat] at hok
      cases hrest : bc_parse_bookings tl with
      | error err =>
        rw [hrest] at hok
        exact absurd hok (by simp)
      | ok res =>
        rw [hrest] at hok
        simp only [Except.ok.injEq] at hok
        subst hok
        exact List.Forall₂.cons ⟨rfl, hflat⟩ (ih hrest)

lemma forall₂_mem_right {R : String × ICSDoc → String × List (Int × Int) → Prop}
    {m : List (String × ICSDoc)} {res : List (String × List (Int × Int))}
    (h : List.Forall₂ R m res) {q : String × List (Int × Int)} (hq : q ∈ res) :
    ∃ p ∈ m, R p q := by
  induction h with
  | nil => simp at hq
  | cons hR _ ih =>
    rcases List.mem_cons.mp hq with rfl | hq
    · exact ⟨_, List.mem_cons_self _ _, hR⟩
    · obtain ⟨p, hp, hpq⟩ := ih hq
      exact ⟨p, List.mem_cons_of_mem _ hp, hpq⟩

lemma mem_build {bookings : List (String × List (Int × Int))}
    {start days : Int} {d : Int} {dm : List (String × Flags)}
    (h : (d, dm) ∈ build_schedule_for_days bookings start days) :
    ∃ i : Nat, i < days.toNat ∧ d = start + (i : Int) ∧
      dm = dayMap bookings d ∧ dm ≠ [] := by
  unfold build_schedule_for_days at h
  rw [List.mem_filterMap] at h
  obtain ⟨i, hi, hif⟩ := h
  rw [List.mem_range] at hi
  split at hif
  · exact absurd hif (by simp)
  · rename_i hne
    simp only [Option.some.injEq, Prod.mk.injEq] at hif
    obtain ⟨h1, h2⟩ := hif
    subst h1
    subst h2
    refine ⟨i, hi, rfl, rfl, ?_⟩
    simpa using hne

lemma mem_dayMap {bookings : List (String × List (Int × Int))} {d : Int}
    {p : String × Flags} (h : p ∈ dayMap bookings d) :
    (p.2.check_in || p.2.check_out) = true ∧
      ∃ events, (p.1, events) ∈ bookings ∧ p.2 = dayFlags events d := by
  unfold dayMap at h
  rw [List.mem_filterMap] at h
  obtain ⟨fe, hfe, hif⟩ := h
  split at hif
  · rename_i hflag
    simp only [Option.some.injEq] at hif
    subst hif
    exact ⟨hflag, fe.2, by simpa using hfe, rfl⟩
  · exact absurd hif (by simp)

lemma dayFlags_cons_ne {events : List (Int × Int)} {ci co d : Int}
    (hci : ci ≠ d) (hco : co ≠ d) :
    dayFlags ((ci, co) :: events) d = dayFlags events d := by
  have h1 : (ci == d) = false := beq_eq_false_iff_ne.mpr hci
  have h2 : (co == d) = false := beq_eq_false_iff_ne.mpr hco
  simp [dayFlags, h1, h2]

lemma dayFlags_cons_mem {events : List (Int × Int)} {iv : Int × Int} {d : Int}
    (hmem : iv ∈ events) :
    dayFlags (iv :: events) d = dayFlags events d := by
  obtain ⟨a, b⟩ := iv
  unfold dayFlags
  simp only [List.any_cons, Flags.mk.injEq]
  constructor
  · show (a == d || events.any fun se => se.1 == d) = events.any fun se => se.1 == d
    cases hfe : a == d
    · simp
    · have htrue : (events.any fun se => se.1 == d) = true :=
        List.any_eq_true.mpr ⟨(a, b), hmem, by simpa using hfe⟩
      rw [htrue]
      rfl
  · show (b == d || events.any fun se => se.2 == d) = events.any fun se => se.2 == d
    cases hfe : b == d
    · simp
    · have htrue : (events.any fun se => se.2 == d) = true :=
        List.any_eq_true.mpr ⟨(a, b), hmem, by simpa using hfe⟩
      rw [htrue]
      rfl

lemma dayMap_addInterval_ne {bookings : List (String × List (Int × Int))}
    {flat : String} {ci co d : Int} (hci : ci ≠ d) (hco : co ≠ d) :
    dayMap (addInterval bookings flat (ci, co)) d = dayMap bookings d := by
  unfold dayMap addInterval
  rw [List.filterMap_map]
  apply List.filterMap_congr
  intro fe _
  obtain ⟨name, events⟩ := fe
  simp only [Function.comp_apply]
  by_cases hf : name = flat
  · simp [hf, dayFlags_cons_ne hci hco]
  · simp [hf]

lemma dayMap_addInterval_mem {bookings : List (String × List (Int × Int))}
    {flat : String} {iv : Int × Int} {d : Int}
    (hdup : ∀ fe ∈ bookings, fe.1 = flat → iv ∈ fe.2) :
    dayMap (addInterval bookings flat iv) d = dayMap bookings d := by
  unfold dayMap addInterval
  rw [List.filterMap_map]
  apply List.filterMap_congr
  intro fe hfe
  obtain ⟨name, events⟩ := fe
  simp only [Function.comp_apply]
  by_cases hf : name = flat
  · simp [hf, dayFlags_cons_mem (hdup _ hfe hf)]
  · simp [hf]

/-! ### Claims -/

/-- C1, counterexample to the claim as stated: `app.parse_bookings` has
no `check_out <= check_in` skip, so a zero-length event
(`DTSTART = DTEND`) stays in its output list, and such an interval,
projected by the schedule builder, does contribute flags to a day. -/
theorem C1_counterexample :
    app_parse_bookings
        (ICSDoc.parsed [⟨"VEVENT", some (DTValue.vdate 10), some (DTValue.vdate 10)⟩])
      = Except.ok [(10, 10)] ∧
    build_schedule_for_days [("F", [((10 : Int), 10)])] 10 1
      = [(10, [("F", ⟨true, true⟩)])] :=
  ⟨rfl, by decide⟩

/-- C1 (amended): the `booking_cleaner.py` parser excludes every VEVENT
whose normalized dates satisfy `check_out <= check_in`: each interval
in its output satisfies `check_in < check_out` strictly, so a
zero-length or negative event contributes no flags to any built
schedule.  (The `app.py` parser performs no such check and retains
zero-length events.) -/
theorem C1_bc_parser_skips_nonpositive
    {ics_map : List (String × ICSDoc)}
    {results : List (String × List (Int × Int))}
    (hok : bc_parse_bookings ics_map = Except.ok results)
    {flat : String} {events : List (Int × Int)}
    (hf : (flat, events) ∈ results)
    {s e : Int} (he : (s, e) ∈ events) : s < e := by
  obtain ⟨p, _, _, hflat⟩ := forall₂_mem_right (bc_parse_bookings_forall₂ hok) hf
  exact bc_parse_flat_mem_lt hflat he

theorem C1_witness :
    bc_parse_bookings
        [("A", ICSDoc.parsed [⟨"VEVENT", some (DTValue.vdate 3), some (DTValue.vdate 5)⟩])]
      = Except.ok [("A", [(3, 5)])] ∧
    ("A", [((3 : Int), 5)]) ∈ [("A", [((3 : Int), 5)])] ∧
    ((3 : Int), (5 : Int)) ∈ [((3 : Int), 5)] ∧ (3 : Int) < 5 :=
  ⟨rfl, by decide, by decide,
    @C1_bc_parser_skips_nonpositive
      [("A", ICSDoc.parsed [⟨"VEVENT", some (DTValue.vdate 3), some (DTValue.vdate 5)⟩])]
      [("A", [((3 : Int), 5)])] rfl "A" [((3 : Int), 5)] (by decide) 3 5 (by decide)⟩

/-- C2, counterexample to the claim as stated: `booking_cleaner.py`'s
`parse_bookings` calls `Calendar.from_ical` outside any try/except, so
a non-empty malformed calendar text propagates the parse exception to
the caller instead of yielding a list. -/
theorem C2_counterexample :
    bc_parse_bookings [("flat1", ICSDoc.malformed)] = Except.error "ValueError" :=
  rfl

/-- C2 (amended): `app.py`'s `parse_bookings` never raises: for every
input text, including empty, whitespace-only, malformed, or parsed
calendars, it returns `ok` with a (possibly empty) list, and a garbage
(malformed) or empty document yields the empty list.
(`booking_cleaner.py`'s `parse_bookings` instead propagates the parse
exception for non-empty malformed text.) -/
theorem C2_app_parser_never_raises :
    (∀ ics_text : ICSDoc, ∃ spans, app_parse_bookings ics_text = Except.ok spans) ∧
    app_parse_bookings ICSDoc.malformed = Except.ok [] ∧
    app_parse_bookings ICSDoc.empty = Except.ok [] ∧
    app_parse_bookings ICSDoc.blank = Except.ok [] := by
  refine ⟨?_, rfl, rfl, rfl⟩
  intro doc
  cases doc <;> exact ⟨_, rfl⟩

/-- C3, counterexample to the claim as stated: `booking_cleaner.py`'s
`fetch_ics` calls `requests.get` and `raise_for_status()` outside any
try/except, so a network failure propagates and a 4xx status raises
`HTTPError`. -/
theorem C3_counterexample :
    bc_fetch_ics "https://calendar.example/cal.ics" HTTPOutcome.failure
      = Except.error "RequestException" ∧
    bc_fetch_ics "https://calendar.example/cal.ics" (HTTPOutcome.response 404 "Not Found")
      = Except.error "HTTPError" :=
  ⟨rfl, rfl⟩

/-- C3 (amended): `app.py`'s `fetch_ics` never raises: it always
returns `ok`, and on every failure path — empty URL, network
error/timeout, status ≥ 400, or empty body — the returned text is the
empty string.  (`booking_cleaner.py`'s `fetch_ics` instead propagates
network exceptions and raises for 4xx/5xx statuses.) -/
theorem C3_app_fetch_never_raises :
    (∀ (url : String) (net : HTTPOutcome), ∃ text, fetch_ics url net = Except.ok text) ∧
    (∀ net, fetch_ics "" net = Except.ok "") ∧
    (∀ url, fetch_ics url HTTPOutcome.failure = Except.ok "") ∧
    (∀ (url : String) (status : Nat) (text : String), 400 ≤ status →
      fetch_ics url (HTTPOutcome.response status text) = Except.ok "") ∧
    (∀ (url : String) (status : Nat),
      fetch_ics url (HTTPOutcome.response status "") = Except.ok "") := by
  refine ⟨?_, ?_, ?_, ?_, ?_⟩
  · intro url net
    unfold fetch_ics
    split
    · exact ⟨_, rfl⟩
    · cases net <;> exact ⟨_, rfl⟩
  · intro net
    unfold fetch_ics
    rw [if_pos rfl]
  · intro url
    unfold fetch_ics
    split
    · rfl
    · rfl
  · intro url status text hstatus
    unfold fetch_ics
    split
    · rfl
    · show Except.ok (if 400 ≤ status ∨ text = "" then "" else text) = Except.ok ""
      rw [if_pos (Or.inl hstatus)]
  · intro url status
    unfold fetch_ics
    split
    · rfl
    · show Except.ok (if 400 ≤ status ∨ "" = "" then "" else "") = Except.ok ""
      rw [if_pos (Or.inr rfl)]

theorem C3_witness :
    400 ≤ 404 ∧
    fetch_ics "https://calendar.example/cal.ics" (HTTPOutcome.response 404 "err")
      = Except.ok "" :=
  ⟨by decide,
    C3_app_fetch_never_raises.2.2.2.1 "https://calendar.example/cal.ics" 404 "err" (by decide)⟩

/-- C4: a built schedule never contains a day with an empty unit map,
and never contains a unit entry whose `check_in` and `check_out` flags
are both false: a day is kept only when `day_map` is non-empty, and a
flat is entered only when `check_in or check_out` holds. -/
theorem C4_no_empty_days_no_false_entries
    (bookings : List (String × List (Int × Int))) (start days : Int)
    {d : Int} {dm : List (String × Flags)}
    (hmem : (d, dm) ∈ build_schedule_for_days bookings start days) :
    dm ≠ [] ∧ ∀ p ∈ dm, (p.2.check_in || p.2.check_out) = true := by
  obtain ⟨i, _, _, hdm, hne⟩ := mem_build hmem
  subst hdm
  exact ⟨hne, fun p hp => (mem_dayMap hp).1⟩

theorem C4_witness :
    ([("A", Flags.mk true false)] : List (String × Flags)) ≠ [] ∧
    ∀ p ∈ ([("A", Flags.mk true false)] : List (String × Flags)),
      (p.2.check_in || p.2.check_out) = true :=
  @C4_no_empty_days_no_false_entries [("A", [((0 : Int), 2)])] 0 3
    0 [("A", Flags.mk true false)] (by decide)

/-- C5: every day key of a built schedule lies in the half-open window
`[start, start + days)`; an interval whose check-in and check-out dates
both fall outside the window contributes nothing (adding it to a flat's
list leaves the schedule unchanged); and for every `days <= 0` the
result is empty. -/
theorem C5_window
    (bookings : List (String × List (Int × Int))) (start days : Int) :
    (∀ (d : Int) (dm : List (String × Flags)),
      (d, dm) ∈ build_schedule_for_days bookings start days →
        start ≤ d ∧ d < start + days) ∧
    (∀ (flat : String) (ci co : Int),
      ¬(start ≤ ci ∧ ci < start + days) → ¬(start ≤ co ∧ co < start + days) →
      build_schedule_for_days (addInterval bookings flat (ci, co)) start days
        = build_schedule_for_days bookings start days) ∧
    (days ≤ 0 → build_schedule_for_days bookings start days = []) := by
  refine ⟨?_, ?_, ?_⟩
  · intro d dm hmem
    obtain ⟨i, hi, hd, _, _⟩ := mem_build hmem
    subst hd
    omega
  · intro flat ci co hci hco
    unfold build_schedule_for_days
    apply List.filterMap_congr
    intro i hi
    rw [List.mem_range] at hi
    have hci' : ci ≠ start + (i : Int) := by omega
    have hco' : co ≠ start + (i : Int) := by omega
    rw [dayMap_addInterval_ne hci' hco']
  · intro hdays
    unfold build_schedule_for_days
    have h0 : days.toNat = 0 := by omega
    rw [h0]
    rfl

theorem C5_witness :
    build_schedule_for_days [("A", [((0 : Int), 2)])] 0 (-1) = [] ∧
    build_schedule_for_days (addInterval [("A", [((0 : Int), 2)])] "A" (5, 7)) 0 3
      = build_schedule_for_days [("A", [((0 : Int), 2)])] 0 3 :=
  ⟨(C5_window [("A", [((0 : Int), 2)])] 0 (-1)).2.2 (by decide),
    (C5_window [("A", [((0 : Int), 2)])] 0 3).2.1 "A" 5 7 (by decide) (by decide)⟩

/-- C6: both parsers set the `check_out` of a produced interval to the
calendar date literally encoded in the event's DTEND value — the bare
date, or the date truncation of a date-time — with no one-day decrement
for exclusive-end iCalendar semantics. -/
theorem C6_checkout_is_literal_dtend :
    (∀ (comp : Component) (s e : Int), eventOf comp = some (s, e) →
      comp.dtend = some (DTValue.vdate e) ∨
        ∃ secs, comp.dtend = some (DTValue.vdatetime e secs)) ∧
    (∀ (comp : Component) (s e : Int), app_eventOf comp = some (s, e) →
      comp.dtend = some (DTValue.vdate e) ∨
        ∃ secs, comp.dtend = some (DTValue.vdatetime e secs)) := by
  constructor
  · intro comp s e h
    obtain ⟨name, ds, de⟩ := comp
    rcases ds with _ | (d1 | ⟨d1, t1⟩ | _) <;>
      rcases de with _ | (d2 | ⟨d2, t2⟩ | _) <;>
      by_cases hn : name = "VEVENT" <;>
      simp_all [eventOf, normalizeDT]
  · intro comp s e h
    obtain ⟨name, ds, de⟩ := comp
    rcases ds with _ | (d1 | ⟨d1, t1⟩ | _) <;>
      rcases de with _ | (d2 | ⟨d2, t2⟩ | _) <;>
      by_cases hn : name = "VEVENT" <;>
      simp_all [app_eventOf, to_date]

theorem C6_witness :
    (Component.mk "VEVENT" (some (DTValue.vdate 1)) (some (DTValue.vdatetime 3 7200))).dtend
        = some (DTValue.vdate 3) ∨
      ∃ secs,
        (Component.mk "VEVENT" (some (DTValue.vdate 1)) (some (DTValue.vdatetime 3 7200))).dtend
          = some (DTValue.vdatetime 3 secs) :=
  C6_checkout_is_literal_dtend.1
    (Component.mk "VEVENT" (some (DTValue.vdate 1)) (some (DTValue.vdatetime 3 7200)))
    1 3 (by decide)

/-- C7: the label derivation is a total pure function of the two flags,
following the specification's table (`spec_label`): `{true,false}` maps
to CHECK_IN, `{false,true}` to CHECK_OUT, `{true,true}` to
SAME_DAY_TURNOVER; and both the text presenter (`format_schedule`'s
item logic) and the spreadsheet-row presenter (`schedule_to_rows`'s
action logic) factor through this same table on every flag
combination. -/
theorem C7_label_table :
    spec_label ⟨true, false⟩ = some Status.CHECK_IN ∧
    spec_label ⟨false, true⟩ = some Status.CHECK_OUT ∧
    spec_label ⟨true, true⟩ = some Status.SAME_DAY_TURNOVER ∧
    (∀ (flat_name : String) (flags : Flags),
      format_item flat_name flags
        = (spec_label flags).map fun st => flat_name ++ (": " ++ format_text st)) ∧
    (∀ flags : Flags, row_action flags = ((spec_label flags).map row_text).getD "") := by
  refine ⟨rfl, rfl, rfl, ?_, ?_⟩
  · rintro flat_name ⟨ci, co⟩
    cases ci <;> cases co <;> rfl
  · rintro ⟨ci, co⟩
    cases ci <;> cases co <;> rfl

/-- C8: extending any unit's interval list with an interval it already
contains (a duplicate, or an overlapping interval with identical
boundary dates) leaves the built schedule unchanged: the per-day flags
are existence checks, so repeated intervals never change the result. -/
theorem C8_duplicates_no_effect
    (bookings : List (String × List (Int × Int))) (start days : Int)
    (flat : String) (iv : Int × Int)
    (hdup : ∀ fe ∈ bookings, fe.1 = flat → iv ∈ fe.2) :
    build_schedule_for_days (addInterval bookings flat iv) start days
      = build_schedule_for_days bookings start days := by
  unfold build_schedule_for_days
  apply List.filterMap_congr
  intro i _
  rw [dayMap_addInterval_mem hdup]

theorem C8_witness :
    build_schedule_for_days (addInterval [("A", [((0 : Int), 2)])] "A" (0, 2)) 0 3
      = build_schedule_for_days [("A", [((0 : Int), 2)])] 0 3 :=
  C8_duplicates_no_effect [("A", [((0 : Int), 2)])] 0 3 "A" (0, 2) (by decide)

/-- C9: the schedule builder is a deterministic function of its
arguments: two runs on identical bookings, start date and day count
produce identical outputs (the embedding is pure, and Python dict
iteration order — insertion order — is part of the modelled input, so
no hidden state can vary between runs). -/
theorem C9_deterministic
    (b₁ b₂ : List (String × List (Int × Int))) (s₁ s₂ n₁ n₂ : Int)
    (hb : b₁ = b₂) (hs : s₁ = s₂) (hn : n₁ = n₂) :
    build_schedule_for_days b₁ s₁ n₁ = build_schedule_for_days b₂ s₂ n₂ := by
  rw [hb, hs, hn]

theorem C9_witness :
    build_schedule_for_days [("A", [((0 : Int), 2)])] 0 14
      = build_schedule_for_days [("A", [((0 : Int), 2)])] 0 14 :=
  C9_deterministic [("A", [((0 : Int), 2)])] [("A", [((0 : Int), 2)])]
    0 0 14 14 rfl rfl rfl

/-- C10: on success, the multi-flat parser's result has exactly the
keys of the input map, in order; a flat with empty text, or with a
calendar containing no VEVENT component, maps to the empty list rather
than being omitted; and each flat's interval list is sorted ascending
by the lexicographic key `(check_in, check_out)`. -/
theorem C10_keys_and_sorted
    {ics_map : List (String × ICSDoc)}
    {results : List (String × List (Int × Int))}
    (hok : bc_parse_bookings ics_map = Except.ok results) :
    results.map Prod.fst = ics_map.map Prod.fst ∧
    List.Forall₂ (fun p q =>
        (p.2 = ICSDoc.empty → q.2 = ([] : List (Int × Int))) ∧
        (∀ comps, p.2 = ICSDoc.parsed comps →
          (∀ c ∈ comps, c.name ≠ "VEVENT") → q.2 = ([] : List (Int × Int))))
      ics_map results ∧
    ∀ fe ∈ results, fe.2.Pairwise eventLe := by
  have hall := bc_parse_bookings_forall₂ hok
  clear hok
  refine ⟨?_, ?_, ?_⟩
  · induction hall with
    | nil => rfl
    | cons hpq _ ih => simp only [List.map_cons, ih, hpq.1]
  · refine hall.imp ?_
    rintro p q ⟨_, hq⟩
    constructor
    · intro hp
      rw [hp] at hq
      simpa [bc_parse_flat] using hq.symm
    · intro comps hp hnov
      rw [hp] at hq
      have hnil : comps.filterMap eventOf = [] := by
        rw [List.filterMap_eq_nil_iff]
        intro c hc
        unfold eventOf
        rw [if_neg (hnov c hc)]
      simp only [bc_parse_flat, from_ical, Except.ok.injEq] at hq
      rw [hnil] at hq
      exact hq.symm
  · intro fe hfe
    obtain ⟨p, _, _, hflat⟩ := forall₂_mem_right hall hfe
    exact bc_parse_flat_sorted hflat

theorem C10_witness :
    ([("A", ([] : List (Int × Int))), ("B", [(1, 3), (5, 7)])].map Prod.fst
        = [("A", ICSDoc.empty),
            ("B", ICSDoc.parsed
              [⟨"VEVENT", some (DTValue.vdate 5), some (DTValue.vdate 7)⟩,
                ⟨"VEVENT", some (DTValue.vdatetime 1 3600), some (DTValue.vdate 3)⟩])].map
            Prod.fst) ∧
    List.Forall₂ (fun p q =>
        (p.2 = ICSDoc.empty → q.2 = ([] : List (Int × Int))) ∧
        (∀ comps, p.2 = ICSDoc.parsed comps →
          (∀ c ∈ comps, c.name ≠ "VEVENT") → q.2 = ([] : List (Int × Int))))
      [("A", ICSDoc.empty),
        ("B", ICSDoc.parsed
          [⟨"VEVENT", some (DTValue.vdate 5), some (DTValue.vdate 7)⟩,
            ⟨"VEVENT", some (DTValue.vdatetime 1 3600), some (DTValue.vdate 3)⟩])]
      [("A", ([] : List (Int × Int))), ("B", [(1, 3), (5, 7)])] ∧
    ∀ fe ∈ [("A", ([] : List (Int × Int))), ("B", [(1, 3), (5, 7)])],
      fe.2.Pairwise eventLe :=
  C10_keys_and_sorted rfl

end CleanerSchedule
